import Mathlib

/-!
Verification of the cyclecloud-slurm CLI core (`slurm/src/slurmcc/cli.py`):
the convergence poll loop (`SlurmCLI._wait_for_resume`), the retry executors
(`_retry_rest`, `_retry_subprocess`), the configuration renderers
(`_partitions`, `_generate_gres_conf`, `_generate_topology`), the bucket
preprocessing step (`SlurmDriver.preprocess_node_mgr`) and the
`SlurmCLI.keep_alive` entry point, shallowly embedded as executable Lean
definitions, with theorems settling the specification claims about them.

External collaborators (the `slutil` hostlist codec, the fleet-manager node
manager, `scontrol`) are modelled as parameters or as explicit input
snapshots; Python dicts keyed by strings are modelled as association lists
in insertion order, and Python sets threaded through the loops are modelled
as duplicate-free lists in insertion order.
-/

/-- A node snapshot as seen by one poll cycle of `SlurmCLI._wait_for_resume`:
the fields of the fleet manager `Node` object that the loop reads. -/
structure NodeInfo where
  name : String
  state : String
  targetState : String
  privateIp : Option String
  deriving Repr, DecidableEq

/-- Python `str.lower`, as the character-wise map over the string's data
(the same function `String.toLower` computes, phrased so that the kernel
can evaluate it on literals). -/
def strLower (s : String) : String := String.mk (s.data.map Char.toLower)

/-- `state and state.lower() == "failed"` (cli.py line 598). -/
def isFailedState (s : String) : Bool :=
  !(s == "") && strLower s == "failed"

/-- Python `set.add`: append when absent (insertion-order model of a set). -/
def addName (xs : List String) (x : String) : List String :=
  if x ∈ xs then xs else xs ++ [x]

/-- The per-cycle classification state built by the `for name in node_list`
loop of `_wait_for_resume` (cli.py lines 588-620).  Each counter of the
Python `states` dict that matters to a claim is kept as the list of node
names that were counted under it, so the counts are the lengths. -/
structure CycleResult where
  relevant : List String
  deleted : Nat
  ready : List NodeInfo
  waiting : List String
  failedNames : List String
  unknownNames : List String
  failedSet : List String
  newlyFailed : List String
  recovered : List String
  deriving Repr, DecidableEq

def initCycle (failedSet : List String) : CycleResult :=
  ⟨[], 0, [], [], [], [], failedSet, [], []⟩

/-- One execution of the loop body of lines 588-620 for one requested name:
missing nodes are skipped (`deleted_nodes`), `Failed` nodes are counted and
added to `failed_node_names` when new, a non-Failed node already in
`failed_node_names` is recorded as recovered, a node whose target state is
not `Started` is counted under `UNKNOWN`, and a `Ready` node is usable only
with a private IP (else it is counted as `WaitingOnIPAddress`). -/
def classifyNode (acc : CycleResult) (node : Option NodeInfo) (name : String) :
    CycleResult :=
  match node with
  | none => { acc with deleted := acc.deleted + 1 }
  | some n =>
    let acc := { acc with relevant := acc.relevant ++ [name] }
    if isFailedState n.state then
      let acc := { acc with failedNames := acc.failedNames ++ [name] }
      if name ∈ acc.failedSet then acc
      else { acc with newlyFailed := acc.newlyFailed ++ [name],
                      failedSet := acc.failedSet ++ [name] }
    else
      let acc :=
        if name ∈ acc.failedSet then
          { acc with recovered := addName acc.recovered name }
        else acc
      if n.targetState ≠ "Started" then
        { acc with unknownNames := acc.unknownNames ++ [name] }
      else if n.state == "Ready" then
        if n.privateIp.isSome then { acc with ready := acc.ready ++ [n] }
        else { acc with waiting := acc.waiting ++ [name] }
      else acc

/-- `by_name.get(name)`: lookup of a requested name in the inventory
snapshot (`hpcutil.partition_single` keys the snapshot by unique name). -/
def findNode (nodes : List NodeInfo) (name : String) : Option NodeInfo :=
  nodes.find? (fun n => n.name == name)

/-- The whole classification loop of one poll cycle. -/
def classify (nodes : List NodeInfo) (failedSet : List String)
    (nodeList : List String) : CycleResult :=
  nodeList.foldl (fun acc name => classifyNode acc (findNode nodes name) name)
    (initCycle failedSet)

/-- Python `set.pop` takes no argument, so the call
`failed_node_names.pop(recovered_name)` (cli.py line 662) raises
`TypeError` unconditionally instead of removing the name. -/
def setPop (_s : List String) (_x : String) : Except String (List String) :=
  .error "TypeError: pop() takes no arguments (1 given)"

/-- The `recovered_node_names` block of cli.py lines 644-667: the whole
`for` loop runs inside a single `try`; each iteration issues the
`State=idle` command for one name and then calls
`failed_node_names.pop(recovered_name)`; any exception aborts the rest of
the loop and is swallowed by the `except` block.  Returns the idle commands
issued (as the node names they target) and the failed set afterwards. -/
def recoveredLoop (failedSet : List String) (cmds : List String) :
    List String → List String × List String
  | [] => (cmds, failedSet)
  | name :: rest =>
    let cmds := cmds ++ [name]
    if name ∈ failedSet then
      match setPop failedSet name with
      | .error _ => (cmds, failedSet)
      | .ok s => recoveredLoop s cmds rest
    else recoveredLoop failedSet cmds rest

/-- Result of one full poll cycle: the classification, the `State=down`
commands issued (cli.py lines 622-642, one per name iterated), the
`State=idle` commands issued (lines 644-667) and the failed-name set left
for the next cycle. -/
structure PollOutcome where
  cycle : CycleResult
  downCmds : List String
  idleCmds : List String
  failedSetAfter : List String
  deriving Repr, DecidableEq

/-- One iteration of the `while time.time() < omega` loop, after the
inventory snapshot has been fetched: classification followed by the two
side-effect blocks.  The down block iterates over the whole
`failed_node_names` set (not over `newly_failed_node_names`) but only when
`newly_failed_node_names` is non-empty. -/
def pollCycle (nodes : List NodeInfo) (failedSet : List String)
    (nodeList : List String) : PollOutcome :=
  let c := classify nodes failedSet nodeList
  let downCmds := if c.newlyFailed.isEmpty then [] else c.failedSet
  let idleFs :=
    if c.recovered.isEmpty then ([], c.failedSet)
    else recoveredLoop c.failedSet [] c.recovered
  ⟨c, downCmds, idleFs.1, idleFs.2⟩

/-- `terminal_states` of cli.py lines 669-673:
`states.get("Ready", 0) + sum(states.get("UNKNOWN", {}).values()) +
states.get("Failed", 0)`. -/
def terminalCount (c : CycleResult) : Nat :=
  c.ready.length + c.unknownNames.length + c.failedNames.length

/-- The exit test of cli.py line 694 for one cycle. -/
def exitCond (nodes : List NodeInfo) (failedSet : List String)
    (nodeList : List String) : Bool :=
  let out := pollCycle nodes failedSet nodeList
  terminalCount out.cycle == out.cycle.relevant.length

/-- What `_wait_for_resume` leaves behind when the loop ends: the
`ready_nodes` of the last executed cycle, how many cycles ran, and whether
the loop ended by deadline (`timedOut`) rather than by the `break`. -/
structure LoopOutcome where
  ready : List NodeInfo
  cycles : Nat
  timedOut : Bool
  failedSet : List String
  deriving Repr, DecidableEq

/-- The poll loop of `_wait_for_resume` (cli.py lines 571-699).  Wall-clock
time is modelled by `snaps`: one inventory fetch per iteration the one-hour
deadline still allows; an exhausted list is the deadline expiring.  A
`.error` entry is a cycle whose `_retry_rest(lambda: node_mgr.get_nodes())`
raised after exhausting its retries, which propagates out of the loop. -/
def waitLoop (nodeList : List String) :
    List (Except String (List NodeInfo)) → List String → List NodeInfo →
    Except String LoopOutcome
  | [], fs, lastReady => .ok ⟨lastReady, 0, true, fs⟩
  | snap :: rest, fs, _ =>
    match snap with
    | .error e => .error e
    | .ok nodes =>
      let out := pollCycle nodes fs nodeList
      if exitCond nodes fs nodeList then
        .ok ⟨out.cycle.ready, 1, false, out.failedSetAfter⟩
      else
        match waitLoop nodeList rest out.failedSetAfter out.cycle.ready with
        | .error e => .error e
        | .ok r => .ok ⟨r.ready, r.cycles + 1, r.timedOut, r.failedSet⟩

/-- `_wait_for_resume` starts with an empty failed set and `ready_nodes`
initialised to the empty list (cli.py lines 567-569). -/
def waitForResume (nodeList : List String)
    (snaps : List (Except String (List NodeInfo))) : Except String LoopOutcome :=
  waitLoop nodeList snaps [] []

/-- The exit test evaluated at cycle `i` of a run over the snapshots
`snaps`, threading the failed set exactly as the loop does. -/
def condAt (nodeList : List String) :
    List (List NodeInfo) → List String → Nat → Bool
  | [], _, _ => false
  | nodes :: _, fs, 0 => exitCond nodes fs nodeList
  | nodes :: rest, fs, i + 1 =>
    condAt nodeList rest (pollCycle nodes fs nodeList).failedSetAfter i

/-- The usability test the loop applies to an existing node before adding
it to `ready_nodes`: not `Failed`, target state `Started`, state `Ready`,
private IP assigned. -/
def isUsableReady (n : NodeInfo) : Bool :=
  !(isFailedState n.state) && n.targetState == "Started" &&
    n.state == "Ready" && n.privateIp.isSome

/-- The test under which the loop counts an existing node as
`WaitingOnIPAddress` instead. -/
def isWaitingOnIp (n : NodeInfo) : Bool :=
  !(isFailedState n.state) && n.targetState == "Started" &&
    n.state == "Ready" && !(n.privateIp.isSome)

/-- The nodes of a requested-name list that the classification adds to
`ready_nodes`, read off the inventory snapshot name by name. -/
def readyOf (nodes : List NodeInfo) (nodeList : List String) : List NodeInfo :=
  nodeList.filterMap (fun name =>
    (findNode nodes name).bind (fun n => if isUsableReady n then some n else none))

/-- The requested names the classification counts as `WaitingOnIPAddress`. -/
def waitingOf (nodes : List NodeInfo) (nodeList : List String) : List String :=
  nodeList.filter (fun name => ((findNode nodes name).map isWaitingOnIp).getD false)

theorem classifyNode_ready (acc : CycleResult) (node : Option NodeInfo)
    (name : String) :
    (classifyNode acc node name).ready =
      acc.ready ++ (match node with
        | some n => if isUsableReady n then [n] else []
        | none => []) := by
  cases node with
  | none => simp [classifyNode]
  | some n =>
    simp only [classifyNode, isUsableReady]
    by_cases hf : isFailedState n.state
    · by_cases hm : name ∈ acc.failedSet <;> simp [hf, hm]
    · by_cases ht : n.targetState = "Started"
      · by_cases hr : n.state == "Ready"
        · by_cases hip : n.privateIp.isSome <;>
            by_cases hm : name ∈ acc.failedSet <;>
            simp [hf, ht, hr, hip, hm]
        · by_cases hm : name ∈ acc.failedSet <;> simp [hf, ht, hr, hm]
      · by_cases hm : name ∈ acc.failedSet <;> simp [hf, ht, hm]

theorem classifyNode_waiting (acc : CycleResult) (node : Option NodeInfo)
    (name : String) :
    (classifyNode acc node name).waiting =
      acc.waiting ++ (match node with
        | some n => if isWaitingOnIp n then [name] else []
        | none => []) := by
  cases node with
  | none => simp [classifyNode]
  | some n =>
    simp only [classifyNode, isWaitingOnIp]
    by_cases hf : isFailedState n.state
    · by_cases hm : name ∈ acc.failedSet <;> simp [hf, hm]
    · by_cases ht : n.targetState = "Started"
      · by_cases hr : n.state == "Ready"
        · by_cases hip : n.privateIp.isSome <;>
            by_cases hm : name ∈ acc.failedSet <;>
            simp [hf, ht, hr, hip, hm]
        · by_cases hm : name ∈ acc.failedSet <;> simp [hf, ht, hr, hm]
      · by_cases hm : name ∈ acc.failedSet <;> simp [hf, ht, hm]

theorem classify_fold_ready (nodes : List NodeInfo) :
    ∀ (nodeList : List String) (acc : CycleResult),
    (nodeList.foldl (fun a name => classifyNode a (findNode nodes name) name)
        acc).ready = acc.ready ++ readyOf nodes nodeList := by
  intro nodeList
  induction nodeList with
  | nil => intro acc; simp [readyOf]
  | cons name rest ih =>
    intro acc
    rw [List.foldl_cons, ih, classifyNode_ready]
    simp only [readyOf, List.filterMap_cons]
    cases h : findNode nodes name with
    | none => simp
    | some n => by_cases hu : isUsableReady n <;> simp [hu, Option.bind]

theorem classify_fold_waiting (nodes : List NodeInfo) :
    ∀ (nodeList : List String) (acc : CycleResult),
    (nodeList.foldl (fun a name => classifyNode a (findNode nodes name) name)
        acc).waiting = acc.waiting ++ waitingOf nodes nodeList := by
  intro nodeList
  induction nodeList with
  | nil => intro acc; simp [waitingOf]
  | cons name rest ih =>
    intro acc
    rw [List.foldl_cons, ih, classifyNode_waiting]
    simp only [waitingOf, List.filter_cons]
    cases h : findNode nodes name with
    | none => simp
    | some n => by_cases hw : isWaitingOnIp n <;> simp [hw]

theorem classifyNode_failed_delta (acc : CycleResult) (node : Option NodeInfo)
    (name : String) :
    ∃ d, (classifyNode acc node name).failedSet = acc.failedSet ++ d ∧
      (classifyNode acc node name).newlyFailed = acc.newlyFailed ++ d := by
  cases node with
  | none => exact ⟨[], by simp [classifyNode]⟩
  | some n =>
    by_cases hf : isFailedState n.state
    · by_cases hm : name ∈ acc.failedSet
      · exact ⟨[], by simp [classifyNode, hf, hm]⟩
      · exact ⟨[name], by simp [classifyNode, hf, hm]⟩
    · by_cases ht : n.targetState = "Started"
      · by_cases hr : n.state == "Ready"
        · by_cases hip : n.privateIp.isSome <;>
            by_cases hm : name ∈ acc.failedSet <;>
            exact ⟨[], by simp [classifyNode, hf, ht, hr, hip, hm]⟩
        · by_cases hm : name ∈ acc.failedSet <;>
            exact ⟨[], by simp [classifyNode, hf, ht, hr, hm]⟩
      · by_cases hm : name ∈ acc.failedSet <;>
          exact ⟨[], by simp [classifyNode, hf, ht, hm]⟩

theorem classify_fold_failed_delta (nodes : List NodeInfo) :
    ∀ (nodeList : List String) (acc : CycleResult),
    ∃ e,
      (nodeList.foldl (fun a name => classifyNode a (findNode nodes name) name)
          acc).failedSet = acc.failedSet ++ e ∧
      (nodeList.foldl (fun a name => classifyNode a (findNode nodes name) name)
          acc).newlyFailed = acc.newlyFailed ++ e := by
  intro nodeList
  induction nodeList with
  | nil => intro acc; exact ⟨[], by simp, by simp⟩
  | cons name rest ih =>
    intro acc
    obtain ⟨d, hfs, hnf⟩ :=
      classifyNode_failed_delta acc (findNode nodes name) name
    obtain ⟨e, hfs2, hnf2⟩ := ih (classifyNode acc (findNode nodes name) name)
    refine ⟨d ++ e, ?_, ?_⟩
    · rw [List.foldl_cons, hfs2, hfs, List.append_assoc]
    · rw [List.foldl_cons, hnf2, hnf, List.append_assoc]

/-- The classification only ever appends to `failed_node_names`, and what it
appends is exactly `newly_failed_node_names`, in order. -/
theorem classify_failedSet_eq (nodes : List NodeInfo) (fs : List String)
    (nodeList : List String) :
    (classify nodes fs nodeList).failedSet =
      fs ++ (classify nodes fs nodeList).newlyFailed := by
  obtain ⟨e, h1, h2⟩ := classify_fold_failed_delta nodes nodeList (initCycle fs)
  unfold classify
  rw [h1, h2]
  simp [initCycle]

/-- C1: the failing input.  Node `n1` entered `Failed` in an earlier cycle
(it is in the failed set); this cycle observes it in the non-Failed state
`Off`.  The engine issues the idle command, but `failed_node_names.pop("n1")`
raises `TypeError` (a Python `set.pop` takes no argument), the `except`
swallows it, and `n1` stays in the failed set — so the next cycle issues the
very same idle command again instead of running the recovered side effect
exactly once. -/
theorem recovered_name_not_removed_idle_repeats :
    (pollCycle [⟨"n1", "Off", "Started", none⟩] ["n1"] ["n1"]).idleCmds =
        ["n1"] ∧
    (pollCycle [⟨"n1", "Off", "Started", none⟩] ["n1"] ["n1"]).failedSetAfter =
        ["n1"] ∧
    (pollCycle [⟨"n1", "Off", "Started", none⟩]
        ((pollCycle [⟨"n1", "Off", "Started", none⟩] ["n1"] ["n1"]).failedSetAfter)
        ["n1"]).idleCmds = ["n1"] ∧
    setPop ["n1"] "n1" =
      .error "TypeError: pop() takes no arguments (1 given)" := by
  refine ⟨by decide, by decide, by decide, rfl⟩

/-- C2, counterexample: `a` is already in the failed set and still `Failed`,
`b` newly enters `Failed`.  The down block iterates over the whole failed
set, so the stable-Failed name `a` receives another `State=down` command
even though only `b` newly failed. -/
theorem down_command_repeated_for_stable_failed :
    (pollCycle
        [⟨"a", "Failed", "Started", none⟩, ⟨"b", "Failed", "Started", none⟩]
        ["a"] ["a", "b"]).cycle.newlyFailed = ["b"] ∧
    (pollCycle
        [⟨"a", "Failed", "Started", none⟩, ⟨"b", "Failed", "Started", none⟩]
        ["a"] ["a", "b"]).downCmds = ["a", "b"] := by
  exact ⟨by decide, by decide⟩

/-- C2, amended: when no name newly enters `Failed`, the cycle issues no
`State=down` command (so a stable failed set receives no duplicates on its
own); when at least one name newly enters `Failed`, the cycle issues one
down command for every name of the updated failed set — the previously
failed names followed by the newly failed ones — not only for the newly
failed names. -/
theorem down_commands_cover_whole_failed_set (nodes : List NodeInfo)
    (fs : List String) (nodeList : List String) :
    ((pollCycle nodes fs nodeList).cycle.newlyFailed = [] →
      (pollCycle nodes fs nodeList).downCmds = []) ∧
    ((pollCycle nodes fs nodeList).cycle.newlyFailed ≠ [] →
      (pollCycle nodes fs nodeList).downCmds =
        fs ++ (pollCycle nodes fs nodeList).cycle.newlyFailed) := by
  constructor
  · intro h
    simp only [pollCycle] at h ⊢
    simp [h]
  · intro h
    simp only [pollCycle] at h ⊢
    rw [if_neg (by simpa using h)]
    exact classify_failedSet_eq nodes fs nodeList

/-- C4: in each cycle, `ready_nodes` is exactly the requested names whose
snapshot exists, is not `Failed`, has target state `Started`, state `Ready`
and a private IP; a `Ready` node without an IP is counted as
`WaitingOnIPAddress` instead; in particular every ready node has target
`Started`, state `Ready` and an address, and when no node of the snapshot
has an address the ready list is empty. -/
theorem ready_exactly_started_ready_with_ip (nodes : List NodeInfo)
    (fs : List String) (nodeList : List String) :
    (classify nodes fs nodeList).ready = readyOf nodes nodeList ∧
    (classify nodes fs nodeList).waiting = waitingOf nodes nodeList ∧
    (∀ n ∈ (classify nodes fs nodeList).ready,
        n.targetState = "Started" ∧ n.state = "Ready" ∧
          n.privateIp.isSome = true) ∧
    ((∀ n ∈ nodes, n.privateIp = none) →
      (classify nodes fs nodeList).ready = []) := by
  have hready : (classify nodes fs nodeList).ready = readyOf nodes nodeList := by
    unfold classify
    rw [classify_fold_ready]
    simp [initCycle]
  have hwait : (classify nodes fs nodeList).waiting = waitingOf nodes nodeList := by
    unfold classify
    rw [classify_fold_waiting]
    simp [initCycle]
  refine ⟨hready, hwait, ?_, ?_⟩
  · intro n hn
    rw [hready] at hn
    simp only [readyOf, List.mem_filterMap] at hn
    obtain ⟨name, _, hf⟩ := hn
    cases hfind : findNode nodes name with
    | none => rw [hfind] at hf; simp [Option.bind] at hf
    | some m =>
      rw [hfind] at hf
      simp only [Option.bind] at hf
      by_cases hu : isUsableReady m
      · rw [if_pos hu] at hf
        cases hf
        simp only [isUsableReady, Bool.and_eq_true, beq_iff_eq] at hu
        exact ⟨hu.1.1.2, hu.1.2, hu.2⟩
      · rw [if_neg hu] at hf
        cases hf
  · intro hnone
    rw [hready]
    simp only [readyOf]
    rw [List.filterMap_eq_nil_iff]
    intro name _
    cases hfind : findNode nodes name with
    | none => simp [Option.bind]
    | some m =>
      have hm : m ∈ nodes := by
        have := List.mem_of_find?_eq_some hfind
        exact this
      have hip : m.privateIp = none := hnone m hm
      simp [Option.bind, isUsableReady, hip]

theorem waitLoop_spec (nodeList : List String) :
    ∀ (oks : List (List NodeInfo)) (fs : List String) (lr : List NodeInfo),
    ∃ out, waitLoop nodeList (oks.map Except.ok) fs lr = .ok out ∧
      out.cycles ≤ oks.length ∧
      (out.timedOut = false → 1 ≤ out.cycles ∧
        condAt nodeList oks fs (out.cycles - 1) = true ∧
        ∀ j < out.cycles - 1, condAt nodeList oks fs j = false) ∧
      (out.timedOut = true → out.cycles = oks.length ∧
        ∀ j, condAt nodeList oks fs j = false) := by
  intro oks
  induction oks with
  | nil =>
    intro fs lr
    refine ⟨⟨lr, 0, true, fs⟩, rfl, by simp, ?_, ?_⟩
    · intro h; simp at h
    · intro _; exact ⟨rfl, fun j => by simp [condAt]⟩
  | cons nodes rest ih =>
    intro fs lr
    by_cases hc : exitCond nodes fs nodeList
    · refine ⟨⟨(pollCycle nodes fs nodeList).cycle.ready, 1, false,
        (pollCycle nodes fs nodeList).failedSetAfter⟩, ?_, by simp, ?_, ?_⟩
      · simp [waitLoop, hc]
      · intro _
        refine ⟨Nat.le_refl 1, ?_, ?_⟩
        · simpa [condAt] using hc
        · intro j hj
          have hj2 : j < 1 - 1 := hj
          omega
      · intro h; simp at h
    · obtain ⟨r, hr, hle, hfalse, htrue⟩ :=
        ih (pollCycle nodes fs nodeList).failedSetAfter
          (pollCycle nodes fs nodeList).cycle.ready
      refine ⟨⟨r.ready, r.cycles + 1, r.timedOut, r.failedSet⟩, ?_, ?_, ?_, ?_⟩
      · simp [waitLoop, hc, hr]
      · simpa using Nat.succ_le_succ hle
      · intro ht
        obtain ⟨h1, h2, h3⟩ := hfalse ht
        refine ⟨show 1 ≤ r.cycles + 1 by omega, ?_, ?_⟩
        · show condAt nodeList (nodes :: rest) fs (r.cycles + 1 - 1) = true
          have heq : r.cycles + 1 - 1 = (r.cycles - 1) + 1 := by omega
          rw [heq]
          simpa [condAt] using h2
        · intro j hj
          cases j with
          | zero => simpa [condAt] using hc
          | succ k =>
            have hj2 : k + 1 < r.cycles + 1 - 1 := hj
            have hk : k < r.cycles - 1 := by omega
            simpa [condAt] using h3 k hk
      · intro ht
        obtain ⟨h1, h2⟩ := htrue ht
        refine ⟨by simp [h1], ?_⟩
        intro j
        cases j with
        | zero => simpa [condAt] using hc
        | succ k => simpa [condAt] using h2 k

/-- C3: over any sequence of successful inventory fetches (one per
iteration the fixed one-hour deadline still permits), the poll loop
returns without raising.  It stops at the first cycle whose exit test
holds — Ready count plus Failed count plus not-target-`Started` count
equal to the count of requested nodes still present in inventory — and
when no cycle satisfies the test before the snapshots run out (the
deadline elapses) it runs them all and returns the partial result of the
last cycle instead of raising. -/
theorem poll_loop_exits_on_convergence_or_deadline (nodeList : List String)
    (oks : List (List NodeInfo)) :
    ∃ out, waitForResume nodeList (oks.map Except.ok) = .ok out ∧
      out.cycles ≤ oks.length ∧
      (out.timedOut = false → 1 ≤ out.cycles ∧
        condAt nodeList oks [] (out.cycles - 1) = true ∧
        ∀ j < out.cycles - 1, condAt nodeList oks [] j = false) ∧
      (out.timedOut = true → out.cycles = oks.length ∧
        ∀ j, condAt nodeList oks [] j = false) :=
  waitLoop_spec nodeList oks [] []

/-- Outcome of a retry executor run, together with the back-off sleeps it
performed (`time.sleep(attempt * attempt)`), one entry per failed attempt,
in order. -/
structure RetryOut (α : Type) where
  result : Except String α
  sleeps : List Nat

/-- The `for attempt in range(1, attempts + 1)` loop shared by
`_retry_rest` (cli.py lines 873-885) and `_retry_subprocess` (lines
888-900): `outcomes k` is what the wrapped zero-argument callable does on
attempt `k` (1-indexed); `r` is how many attempts remain.  A failed
attempt stores its exception as `last_exception` and then sleeps
`attempt * attempt` — the sleep sits inside the `except` block, so it also
runs after the final failed attempt, just before
`CyclecloudSlurmError(str(last_exception))` is raised. -/
def retryAux (outcomes : Nat → Except String α) :
    Nat → Nat → Option String → List Nat → RetryOut α
  | _, 0, lastE, sleeps =>
    ⟨.error ("CyclecloudSlurmError: " ++ lastE.getD "None"), sleeps⟩
  | k, r + 1, _, sleeps =>
    match outcomes k with
    | .ok v => ⟨.ok v, sleeps⟩
    | .error e => retryAux outcomes (k + 1) r (some e) (sleeps ++ [k * k])

/-- `_retry_rest(func, attempts)` (and `_retry_subprocess`, whose control
flow is identical): `attempts = max(1, attempts)`, then the attempt loop
starting at attempt 1 with no recorded exception. -/
def retryRest (outcomes : Nat → Except String α) (attempts : Nat) : RetryOut α :=
  retryAux outcomes 1 (max 1 attempts) none []

theorem retryAux_step_error (outcomes : Nat → Except String α)
    (k r : Nat) (lastE : Option String) (sleeps : List Nat) (e : String)
    (he : outcomes k = .error e) :
    retryAux outcomes k (r + 1) lastE sleeps =
      retryAux outcomes (k + 1) r (some e) (sleeps ++ [k * k]) := by
  rw [retryAux, he]

theorem retryAux_step_ok (outcomes : Nat → Except String α)
    (k r : Nat) (lastE : Option String) (sleeps : List Nat) (v : α)
    (he : outcomes k = .ok v) :
    retryAux outcomes k (r + 1) lastE sleeps = ⟨.ok v, sleeps⟩ := by
  rw [retryAux, he]

theorem range_map_square_shift (k r : Nat) :
    (List.range (r + 1)).map (fun i => (k + i) * (k + i)) =
      k * k :: (List.range r).map (fun i => (k + 1 + i) * (k + 1 + i)) := by
  rw [List.range_succ_eq_map, List.map_cons, List.map_map]
  simp only [List.cons.injEq]
  refine ⟨by simp, List.map_congr_left ?_⟩
  intro a _
  show (k + (a + 1)) * (k + (a + 1)) = (k + 1 + a) * (k + 1 + a)
  congr 1 <;> omega

theorem retryAux_all_fail (outcomes : Nat → Except String α) :
    ∀ (r k : Nat) (lastE : Option String) (sleeps : List Nat) (e : String),
    1 ≤ r → (∀ i, k ≤ i → i < k + r → ∃ e2, outcomes i = .error e2) →
    outcomes (k + r - 1) = .error e →
    retryAux outcomes k r lastE sleeps =
      ⟨.error ("CyclecloudSlurmError: " ++ e),
        sleeps ++ (List.range r).map (fun i => (k + i) * (k + i))⟩ := by
  intro r
  induction r with
  | zero => intro k lastE sleeps e h1; omega
  | succ r ih =>
    intro k lastE sleeps e _ hall hlast
    obtain ⟨e0, he0⟩ := hall k (Nat.le_refl k) (by omega)
    cases r with
    | zero =>
      have hke : k + 1 - 1 = k := by omega
      rw [hke] at hlast
      rw [hlast] at he0
      cases he0
      rw [retryAux_step_error outcomes k 0 lastE sleeps e hlast]
      simp [retryAux, List.range_succ]
    | succ r2 =>
      rw [retryAux_step_error outcomes k (r2 + 1) lastE sleeps e0 he0]
      have hlast2 : outcomes (k + 1 + (r2 + 1) - 1) = .error e := by
        have h : k + 1 + (r2 + 1) - 1 = k + (r2 + 1 + 1) - 1 := by omega
        rw [h]; exact hlast
      rw [ih (k + 1) (some e0) (sleeps ++ [k * k]) e (by omega)
        (fun i hi1 hi2 => hall i (by omega) (by omega)) hlast2]
      congr 1
      rw [range_map_square_shift k (r2 + 1), List.append_assoc]
      rfl

theorem retryAux_first_success (outcomes : Nat → Except String α) :
    ∀ (r k j : Nat) (v : α) (lastE : Option String) (sleeps : List Nat),
    k ≤ j → j < k + r → outcomes j = .ok v →
    (∀ i, k ≤ i → i < j → ∃ e, outcomes i = .error e) →
    retryAux outcomes k r lastE sleeps =
      ⟨.ok v, sleeps ++ (List.range (j - k)).map (fun i => (k + i) * (k + i))⟩ := by
  intro r
  induction r with
  | zero => intro k j v lastE sleeps h1 h2; omega
  | succ r ih =>
    intro k j v lastE sleeps hkj hjr hok hfail
    by_cases hjk : j = k
    · subst hjk
      rw [retryAux_step_ok outcomes j r lastE sleeps v hok]
      simp
    · obtain ⟨e0, he0⟩ := hfail k (Nat.le_refl k) (by omega)
      rw [retryAux_step_error outcomes k r lastE sleeps e0 he0]
      rw [ih (k + 1) j v (some e0) (sleeps ++ [k * k]) (by omega) (by omega)
        hok (fun i hi1 hi2 => hfail i (by omega) hi2)]
      congr 1
      have hj : j - k = (j - (k + 1)) + 1 := by omega
      rw [hj, range_map_square_shift k (j - (k + 1)), List.append_assoc]
      rfl

/-- C5, amended: for every wrapped operation and every attempt budget
`n ≥ 1`, the retry executor returns the operation's result at the first
successful attempt, sleeping `k * k` time units after each failed attempt
`k` before it; when all `n` attempts fail it raises a single
`CyclecloudSlurmError` wrapping only the last underlying failure — but it
sleeps after EVERY failed attempt, including the final one (the sleep sits
inside the `except` block), so an all-failed run performs `n` sleeps
`1, 4, …, n²`, not `n - 1`. -/
theorem retry_first_success_and_square_backoff {α : Type}
    (outcomes : Nat → Except String α) (n : Nat) (hn : 1 ≤ n) :
    (∀ j v, 1 ≤ j → j ≤ n → outcomes j = .ok v →
      (∀ k, 1 ≤ k → k < j → ∃ e, outcomes k = .error e) →
      (retryRest outcomes n).result = .ok v ∧
      (retryRest outcomes n).sleeps =
        (List.range (j - 1)).map (fun i => (1 + i) * (1 + i))) ∧
    (∀ e, (∀ k, 1 ≤ k → k ≤ n → ∃ e2, outcomes k = .error e2) →
      outcomes n = .error e →
      (retryRest outcomes n).result =
        .error ("CyclecloudSlurmError: " ++ e) ∧
      (retryRest outcomes n).sleeps =
        (List.range n).map (fun i => (1 + i) * (1 + i))) := by
  have hmax : max 1 n = n := by omega
  constructor
  · intro j v hj1 hjn hok hfail
    rw [retryRest, hmax, retryAux_first_success outcomes n 1 j v none []
      hj1 (by omega) hok (fun i hi1 hi2 => hfail i hi1 hi2)]
    exact ⟨rfl, by simp⟩
  · intro e hall hlast
    have hlast2 : outcomes (1 + n - 1) = .error e := by
      have : 1 + n - 1 = n := by omega
      rw [this]; exact hlast
    rw [retryRest, hmax, retryAux_all_fail outcomes n 1 none [] e hn
      (fun i hi1 hi2 => hall i hi1 (by omega)) hlast2]
    exact ⟨rfl, by simp⟩

/-- Attempt outcomes used by the C5 witness: attempt 1 fails, attempt 2
succeeds. -/
def retryWitnessOutcomes : Nat → Except String Unit :=
  fun k => if k = 2 then .ok () else .error "boom"

/-- C5 witness: with two attempts whose first fails and second succeeds,
the executor returns the success and sleeps exactly once, 1² after the
failed first attempt. -/
theorem retry_first_success_witness :
    (retryRest retryWitnessOutcomes 2).result = .ok () ∧
    (retryRest retryWitnessOutcomes 2).sleeps = [1] := by
  have h := (retry_first_success_and_square_backoff retryWitnessOutcomes 2
    (by omega)).1 2 () (by omega) (by omega) rfl
    (fun k hk1 hk2 => ⟨"boom", by
      have : k = 1 := by omega
      subst this
      rfl⟩)
  refine ⟨h.1, ?_⟩
  rw [h.2]
  decide

/-- C5, counterexample: with two attempts that both fail, the sleep list
is `[1, 4]` — the second entry is the `2² ` sleep performed after the
final attempt, which the claim says does not happen (it requires `[1]`). -/
theorem retry_sleeps_after_final_attempt :
    (retryRest (fun _ => (.error "boom" : Except String Unit)) 2).sleeps =
        [1, 4] ∧
    (retryRest (fun _ => (.error "boom" : Except String Unit)) 2).result =
      .error "CyclecloudSlurmError: boom" := by
  exact ⟨rfl, rfl⟩

/-- A single-quote character, used to reproduce quoted fragments of the
rendered strings. -/
def squote : String := String.singleton (Char.ofNat 39)

/-- The `Partition` record synthesized by `partition.fetch_partitions`
(the `slurmcc.partition` module), with the fields the cli.py renderers
read: name, owning nodearray, the compressed node-list expression (absent
until inventory is created), capacity limits, memory (MB), CPU counts,
accounting flags, GPU count and the per-placement-group node lists. -/
structure Partition where
  name : String
  nodearray : String
  nodeList : Option String
  isDefault : Bool
  maxVmCount : Nat
  maxScalesetSize : Nat
  memory : Int
  pcpuCount : Nat
  vcpuCount : Nat
  usePcpu : Bool
  gpuCount : Nat
  isHpc : Bool
  nodeListByPg : List (Option String × List String)
  deriving Repr, DecidableEq

/-- Python `str` of the optional node-list expression, as `.format` renders
it in the `PartitionName=` line (`None` when absent). -/
def pyStrOpt (o : Option String) : String :=
  match o with
  | some s => s
  | none => "None"

/-- `node_list = partition.node_list or []` (cli.py line 732) followed by
`.format`: a missing or empty expression renders as Python`s `[]`. -/
def nodeListOrEmpty (o : Option String) : String :=
  match o with
  | none => "[]"
  | some s => if s = "" then "[]" else s

/-- `memory = max(1024, partition.memory)` (cli.py line 737): the memory
value used for both `RealMemory` and the `DefMemPerCPU` numerator. -/
def realMemoryValue (p : Partition) : Int := max 1024 p.memory

/-- `def_mem_per_cpu = memory // partition.pcpu_count` (cli.py line 738);
Python `//` is floor division, `Int.fdiv` here.  `pcpu_count` is at least
1 for any real bucket (a zero count would raise `ZeroDivisionError`). -/
def defMemPerCpuValue (p : Partition) : Int :=
  Int.fdiv (realMemoryValue p) (Int.ofNat p.pcpuCount)

/-- The `PartitionName=` line (cli.py lines 762-766). -/
def partitionLine (p : Partition) : String :=
  "PartitionName=" ++ p.name ++ " Nodes=" ++ pyStrOpt p.nodeList ++
    " Default=" ++ (if p.isDefault then "YES" else "NO") ++
    " DefMemPerCPU=" ++ toString (defMemPerCpuValue p) ++
    " MaxTime=INFINITE State=UP"

/-- The `Nodename=` line (cli.py lines 768-784): physical or virtual CPU
count per `use_pcpu`, threads per core, the floored `RealMemory`, and the
GRES summary when the partition has GPUs. -/
def nodenameLine (autoscale : Bool) (p : Partition) : String :=
  let cpus := if p.usePcpu then p.pcpuCount else p.vcpuCount
  let threads := if p.usePcpu then max 1 (p.vcpuCount / p.pcpuCount) else 1
  let state := if autoscale then "CLOUD" else "FUTURE"
  "Nodename=" ++ nodeListOrEmpty p.nodeList ++ " Feature=cloud STATE=" ++
      state ++ " CPUs=" ++ toString cpus ++ " ThreadsPerCore=" ++
      toString threads ++ " RealMemory=" ++ toString (realMemoryValue p) ++
    (if p.gpuCount ≠ 0 then " Gres=gpu:" ++ toString p.gpuCount else "")

/-- The block `_partitions` writes for one partition (cli.py lines
731-784): the three fixed `#` comment lines, the partition line and the
node line. -/
def partitionBlock (autoscale : Bool) (p : Partition) : List String :=
  [ "# Note: CycleCloud reported a RealMemory of " ++
      toString (p.memory * 1024) ++ " but we reduced it by -1 " ++
      "(i.e. max(1gb, -1%)) to account for OS/VM overhead which",
    "# would result in the nodes being rejected by Slurm if they report " ++
      "a number less than defined here.",
    "# To pick a different percentage to dampen, set slurm.dampen_memory=X " ++
      "in the nodearray" ++ squote ++ "s Configuration where X is percentage (5 = 5%).",
    partitionLine p,
    nodenameLine autoscale p ]

/-- `_partitions` over the whole partition map (insertion order of the
dict values). -/
def partitionsConf (autoscale : Bool) (ps : List Partition) : List String :=
  ps.flatMap (partitionBlock autoscale)

/-- C8: the memory value `_partitions` renders as `RealMemory` is
`max(1024, partition.memory)` — a bucket reporting 100 MB yields 1024 —
and the rendered `DefMemPerCPU` is the floor division of that same value
by the physical CPU count; both rendered lines carry exactly these
numbers. -/
theorem realmemory_floor_and_defmempercpu (autoscale : Bool) (p : Partition)
    (_hp : 1 ≤ p.pcpuCount) :
    realMemoryValue p = max 1024 p.memory ∧
    1024 ≤ realMemoryValue p ∧
    (p.memory = 100 → realMemoryValue p = 1024) ∧
    defMemPerCpuValue p =
      Int.fdiv (max 1024 p.memory) (Int.ofNat p.pcpuCount) ∧
    (∃ pre, nodenameLine autoscale p =
      pre ++ " RealMemory=" ++ toString (max 1024 p.memory) ++
        (if p.gpuCount ≠ 0 then " Gres=gpu:" ++ toString p.gpuCount else "")) ∧
    (∃ pre, partitionLine p =
      pre ++ " DefMemPerCPU=" ++
        toString (Int.fdiv (max 1024 p.memory) (Int.ofNat p.pcpuCount)) ++
        " MaxTime=INFINITE State=UP") := by
  refine ⟨rfl, le_max_left _ _, ?_, rfl, ?_, ?_⟩
  · intro h
    rw [realMemoryValue, h]
    rfl
  · exact ⟨"Nodename=" ++ nodeListOrEmpty p.nodeList ++ " Feature=cloud STATE=" ++
      (if autoscale then "CLOUD" else "FUTURE") ++ " CPUs=" ++
      toString (if p.usePcpu then p.pcpuCount else p.vcpuCount) ++
      " ThreadsPerCore=" ++
      toString (if p.usePcpu then max 1 (p.vcpuCount / p.pcpuCount) else 1),
      by simp [nodenameLine, realMemoryValue, String.append_assoc]⟩
  · exact ⟨"PartitionName=" ++ p.name ++ " Nodes=" ++ pyStrOpt p.nodeList ++
      " Default=" ++ (if p.isDefault then "YES" else "NO"),
      by simp [partitionLine, defMemPerCpuValue, realMemoryValue,
        String.append_assoc]⟩

/-- C8 witness: a partition reporting 100 MB of memory and 2 physical
CPUs renders `RealMemory=1024` and `DefMemPerCPU=512`. -/
theorem realmemory_floor_witness :
    realMemoryValue ⟨"hpc", "hpc", some "hpc-[1-2]", true, 2, 2, 100, 2, 4,
        false, 0, true, []⟩ = 1024 ∧
    defMemPerCpuValue ⟨"hpc", "hpc", some "hpc-[1-2]", true, 2, 2, 100, 2, 4,
        false, 0, true, []⟩ = 512 := by
  have h := realmemory_floor_and_defmempercpu true
    ⟨"hpc", "hpc", some "hpc-[1-2]", true, 2, 2, 100, 2, 4, false, 0, true, []⟩
    (by decide)
  exact ⟨h.2.2.1 rfl, by rw [h.2.2.2.1]; rfl⟩

/-- `int(ceil(float(a) / b))` for positive `b` (cli.py lines 819-821 and
150): the number of placement groups a partition's capacity needs. -/
def ceilDiv (a b : Nat) : Nat := (a + b - 1) / b

/-- The device path `_generate_gres_conf` writes (cli.py lines 836-840):
`/dev/nvidia0` for one GPU, a bracketed range otherwise. -/
def nvidiaDevices (k : Nat) : String :=
  if 1 < k then "/dev/nvidia[0-" ++ toString (k - 1) ++ "]"
  else "/dev/nvidia0"

/-- One `Nodename= Name=gpu Count= File=` line of gres.conf. -/
structure GresLine where
  nodes : String
  count : Nat
  file : String
  deriving Repr, DecidableEq

/-- `_generate_gres_conf` for one partition (cli.py lines 812-847).
`expandSorted` stands for the external
`sorted(slutil.from_hostlist(node_list), key=slutil.get_sort_key_func(is_hpc))`
and `toHostlist` for `slutil.to_hostlist` (the hostlist codec lives in the
`slurmcc.util` module, outside cli.py).  One entry is produced per
placement-group chunk: the gres line when the partition has GPUs, `none`
for the bare newline written otherwise.  A partition whose node list was
never populated raises. -/
def gresChunks (expandSorted : Bool → String → List String)
    (toHostlist : List String → String) (p : Partition) :
    Except String (List (Option GresLine)) :=
  match p.nodeList with
  | none =>
    .error ("No nodes found for nodearray " ++ p.nodearray ++
      ". Please run " ++ squote ++ "cyclecloud_slurm.sh create_nodes" ++
      squote ++ " first!")
  | some nl =>
    let numPlacementGroups := ceilDiv p.maxVmCount p.maxScalesetSize
    let allNodes := expandSorted p.isHpc nl
    .ok ((List.range numPlacementGroups).map (fun pgIndex =>
      let start := pgIndex * p.maxScalesetSize
      let stop := min p.maxVmCount ((pgIndex + 1) * p.maxScalesetSize)
      let subset := (allNodes.drop start).take (stop - start)
      if p.gpuCount ≠ 0 then
        some ⟨toHostlist subset, p.gpuCount, nvidiaDevices p.gpuCount⟩
      else none))

/-- `_generate_gres_conf` over the whole partition map: fails at the first
partition without a node list, else concatenates the per-partition
chunks. -/
def generateGresConf (expandSorted : Bool → String → List String)
    (toHostlist : List String → String) :
    List Partition → Except String (List (Option GresLine))
  | [] => .ok []
  | p :: rest =>
    match gresChunks expandSorted toHostlist p with
    | .error e => .error e
    | .ok lines =>
      match generateGresConf expandSorted toHostlist rest with
      | .error e => .error e
      | .ok more => .ok (lines ++ more)

/-- C6: for a partition with a populated node list and `k ≥ 1` GPUs, the
GRES renderer emits exactly `ceil(max_vm_count / max_scaleset_size)`
chunks, each a `Name=gpu` line with `Count=k` and device file
`/dev/nvidia0` when `k = 1`, `/dev/nvidia[0-(k-1)]` when `k > 1`. -/
theorem gres_chunk_count_and_device_path
    (expandSorted : Bool → String → List String)
    (toHostlist : List String → String) (p : Partition) (nl : String)
    (hnl : p.nodeList = some nl) (_hs : 1 ≤ p.maxScalesetSize)
    (hg : 1 ≤ p.gpuCount) :
    ∃ lines, gresChunks expandSorted toHostlist p = .ok lines ∧
      lines.length = ceilDiv p.maxVmCount p.maxScalesetSize ∧
      ∀ l ∈ lines, ∃ g, l = some g ∧ g.count = p.gpuCount ∧
        g.file = (if p.gpuCount = 1 then "/dev/nvidia0"
          else "/dev/nvidia[0-" ++ toString (p.gpuCount - 1) ++ "]") := by
  refine ⟨_, by rw [gresChunks, hnl], by simp, ?_⟩
  intro l hl
  simp only [List.mem_map] at hl
  obtain ⟨pgIndex, _, hmk⟩ := hl
  have hne : p.gpuCount ≠ 0 := by omega
  rw [if_pos hne] at hmk
  refine ⟨_, hmk.symm, rfl, ?_⟩
  show nvidiaDevices p.gpuCount = _
  rw [nvidiaDevices]
  by_cases h1 : p.gpuCount = 1
  · rw [if_neg (by omega), if_pos h1]
  · rw [if_pos (by omega), if_neg h1]

/-- The concrete partition used by the C6 witness: capacity 5 in
placement groups of 2, 2 GPUs per node. -/
def gresWitnessPartition : Partition :=
  ⟨"gpu", "gpu", some "gpu-[1-5]", false, 5, 2, 16384, 8, 16, false, 2,
    true, []⟩

/-- C6 witness: the witness partition yields `ceil(5/2) = 3` chunks, each
`Count=2` with file `/dev/nvidia[0-1]`. -/
theorem gres_chunk_count_witness :
    ∃ lines,
      gresChunks (fun _ _ => ["gpu-1", "gpu-2", "gpu-3", "gpu-4", "gpu-5"])
        (String.intercalate ",") gresWitnessPartition = .ok lines ∧
      lines.length = ceilDiv 5 2 ∧
      ∀ l ∈ lines, ∃ g, l = some g ∧ g.count = 2 ∧
        g.file = (if 2 = 1 then "/dev/nvidia0"
          else "/dev/nvidia[0-" ++ toString (2 - 1) ++ "]") :=
  gres_chunk_count_and_device_path
    (fun _ _ => ["gpu-1", "gpu-2", "gpu-3", "gpu-4", "gpu-5"])
    (String.intercalate ",") gresWitnessPartition "gpu-[1-5]" rfl
    (by decide) (by decide)

/-- The bucket fields `SlurmDriver.preprocess_node_mgr` reads (cli.py
lines 134-155): owning nodearray, capacity limits and the
`software_configuration["slurm"]["hpc"]` flag (absent keys give `None`). -/
structure Bucket where
  nodearray : String
  maxCount : Nat
  maxPlacementGroupSize : Nat
  slurmHpc : Option String
  deriving Repr, DecidableEq

/-- `str(b.software_configuration.get("slurm", {}).get("hpc") or
"false").lower() == "true"` (cli.py lines 143-148). -/
def isHpcBucket (b : Bucket) : Bool :=
  strLower (b.slurmHpc.getD "false") == "true"

/-- The buffer value the dead branch of `preprocess_node_mgr` would
compute (cli.py lines 149-152): `ceil(max_count / max_placement_group_size)`
for an HPC-tight-placement bucket, 0 otherwise. -/
def hpcBuffer (b : Bucket) : Nat :=
  if isHpcBucket b then ceilDiv b.maxCount b.maxPlacementGroupSize else 0

/-- The per-nodearray slice of `config["nodearrays"]`: one entry per
nodearray dict that exists; the value is the
`generated_placement_group_buffer` key (absent = `none`). -/
abbrev NodearrayConfig := List (String × Option Nat)

def getBuffer (cfg : NodearrayConfig) (na : String) : Option (Option Nat) :=
  (cfg.find? (fun e => e.1 == na)).map Prod.snd

def setBuffer (cfg : NodearrayConfig) (na : String) (v : Option Nat) :
    NodearrayConfig :=
  cfg.map (fun e => if e.1 == na then (e.1, v) else e)

/-- The body of the `for b in node_mgr.get_buckets()` loop of
`preprocess_node_mgr` (cli.py lines 134-155): ensure the nodearray dict
exists; then the `# TODO remove` line unconditionally assigns
`generated_placement_group_buffer = 0`; then the
`if "generated_placement_group_buffer" in …: continue` guard — made
always-true by that assignment — would otherwise skip recomputation, and
the HPC ceil computation below it would only run for a key still absent. -/
def preprocessBucket (cfg : NodearrayConfig) (b : Bucket) : NodearrayConfig :=
  let cfg1 :=
    if (cfg.find? (fun e => e.1 == b.nodearray)).isSome then cfg
    else cfg ++ [(b.nodearray, none)]
  let cfg2 := setBuffer cfg1 b.nodearray (some 0)
  match getBuffer cfg2 b.nodearray with
  | some (some _) => cfg2
  | _ => setBuffer cfg2 b.nodearray (some (hpcBuffer b))

/-- `SlurmDriver.preprocess_node_mgr` over the bucket list (the
`add_default_resource` call touches only the resource table, not the
nodearray buffer entries modelled here). -/
def preprocessNodeMgr (cfg : NodearrayConfig) (buckets : List Bucket) :
    NodearrayConfig :=
  buckets.foldl preprocessBucket cfg

/-- The HPC bucket of the C7 failing input: capacity 100 in placement
groups of 10, flagged `slurm.hpc = "true"`. -/
def c7Bucket : Bucket := ⟨"hpc", 100, 10, some "true"⟩

/-- C7: at the failing input, the claim requires the buffer
`ceil(100 / 10) = 10` for a fresh HPC bucket and requires a value already
present (7, from a prior cycle) to be left alone; the code instead
overwrites any present value with 0 (the `# TODO remove` line), after
which the presence guard is always true and the HPC computation is dead,
so the resulting buffer is 0 in both cases. -/
theorem placement_group_buffer_always_zero :
    preprocessNodeMgr [("hpc", some 7)] [c7Bucket] = [("hpc", some 0)] ∧
    preprocessNodeMgr [] [c7Bucket] = [("hpc", some 0)] ∧
    hpcBuffer c7Bucket = 10 := by
  refine ⟨by decide, by decide, by decide⟩

/-- `nodes_by_pg[pg].extend(node_list)`, creating the key on first sight
(cli.py lines 790-795): insertion-ordered dict as association list. -/
def addGroup (acc : List (Option String × List String)) (pg : Option String)
    (ns : List String) : List (Option String × List String) :=
  if (acc.find? (fun e => e.1 == pg)).isSome then
    acc.map (fun e => if e.1 == pg then (e.1, e.2 ++ ns) else e)
  else acc ++ [(pg, ns)]

/-- The `nodes_by_pg` dict `_generate_topology` builds by iterating every
partition's `node_list_by_pg` items in order (cli.py lines 790-795). -/
def collectGroups (ps : List Partition) : List (Option String × List String) :=
  (ps.flatMap (fun p => p.nodeListByPg)).foldl
    (fun a e => addGroup a e.1 e.2) []

/-- `key=lambda x: x if x is not None else ""` (cli.py line 802). -/
def pgKey (o : Option String) : String := o.getD ""

/-- The group order of the topology output: by `pgKey`, so the null group
sorts first and the rest alphabetically. -/
def pgLe (a b : Option String) : Prop := pgKey a ≤ pgKey b

instance : DecidableRel pgLe :=
  fun a b => inferInstanceAs (Decidable (pgKey a ≤ pgKey b))

instance : IsTotal (Option String) pgLe :=
  ⟨fun a b => le_total (pgKey a) (pgKey b)⟩

instance : IsTrans (Option String) pgLe :=
  ⟨fun _ _ _ hab hbc => le_trans hab hbc⟩

/-- `bool(pg)`: the truthiness `_generate_topology` passes to
`slutil.get_sort_key_func` (cli.py line 806). -/
def pgBool (o : Option String) : Bool :=
  match o with
  | none => false
  | some s => !(s == "")

/-- `pg or "htc"` (cli.py line 808): the rendered switch name. -/
def pgName (o : Option String) : String :=
  match o with
  | none => "htc"
  | some s => if s = "" then "htc" else s

/-- One `SwitchName=` line (cli.py lines 807-808; the `to_hostlist` call
is commented out in the source, the nodes are joined with commas). -/
def renderSwitch (e : Option String × List String) : String :=
  "SwitchName=" ++ pgName e.1 ++ " Nodes=" ++ String.intercalate "," e.2

/-- The message of the `CyclecloudSlurmError` raised when no groups were
found (cli.py lines 797-800). -/
def topologyErrorMsg : String :=
  "No nodes found to create topology! Do you need to run create_nodes first?"

/-- `_generate_topology` (cli.py lines 787-808): raise when `nodes_by_pg`
is empty; otherwise one structured line per placement group taken in
sorted key order, skipping groups whose node list is empty, each carrying
its nodes sorted by the placement-group-aware key (`sortNodes` stands for
the external `sorted(…, key=slutil.get_sort_key_func(bool(pg)))`). -/
def topologyLine (groups : List (Option String × List String))
    (sortNodes : Bool → List String → List String) (pg : Option String) :
    Option (Option String × List String) :=
  match (groups.find? (fun e => e.1 == pg)).map Prod.snd with
  | some ns => if ns.isEmpty then none
    else some (pg, sortNodes (pgBool pg) ns)
  | none => none

def generateTopology (sortNodes : Bool → List String → List String)
    (ps : List Partition) :
    Except String (List (Option String × List String)) :=
  let groups := collectGroups ps
  if groups.isEmpty then .error topologyErrorMsg
  else
    .ok ((List.insertionSort pgLe (groups.map Prod.fst)).filterMap
      (topologyLine groups sortNodes))

/-- Whether the sorted-keys pass emits a line for key `pg`. -/
def keepPg (groups : List (Option String × List String))
    (pg : Option String) : Bool :=
  match (groups.find? (fun e => e.1 == pg)).map Prod.snd with
  | some ns => !ns.isEmpty
  | none => false

theorem addGroup_keys (acc : List (Option String × List String))
    (pg : Option String) (ns : List String) :
    (addGroup acc pg ns).map Prod.fst =
      if (acc.find? (fun e => e.1 == pg)).isSome then acc.map Prod.fst
      else acc.map Prod.fst ++ [pg] := by
  unfold addGroup
  split
  · rw [List.map_map]
    apply List.map_congr_left
    intro e _
    by_cases h : e.1 = pg <;> simp [h]
  · simp

theorem foldl_addGroup_keys_nodup :
    ∀ (es : List (Option String × List String))
      (acc : List (Option String × List String)),
    (acc.map Prod.fst).Nodup →
    ((es.foldl (fun a e => addGroup a e.1 e.2) acc).map Prod.fst).Nodup := by
  intro es
  induction es with
  | nil => intro acc h; simpa using h
  | cons e rest ih =>
    intro acc h
    rw [List.foldl_cons]
    apply ih
    by_cases hf : (acc.find? (fun q => q.1 == e.1)).isSome
    · rw [addGroup_keys, if_pos hf]; exact h
    · rw [addGroup_keys, if_neg hf]
      rw [List.nodup_append]
      refine ⟨h, List.nodup_singleton _, fun a ha hb => ?_⟩
      simp only [List.mem_singleton] at hb
      subst hb
      simp only [List.mem_map] at ha
      obtain ⟨x, hx, hx1⟩ := ha
      have hnone : acc.find? (fun q => q.1 == e.1) = none :=
        Option.not_isSome_iff_eq_none.mp hf
      rw [List.find?_eq_none] at hnone
      exact absurd (by simp [hx1]) (hnone x hx)

theorem map_fst_filterMap_keys (groups : List (Option String × List String))
    (sortNodes : Bool → List String → List String) :
    ∀ ks : List (Option String),
    ((ks.filterMap (topologyLine groups sortNodes)).map Prod.fst) =
      ks.filter (keepPg groups) := by
  intro ks
  induction ks with
  | nil => rfl
  | cons pg rest ih =>
    rw [List.filterMap_cons, List.filter_cons]
    cases hf : (groups.find? (fun e => e.1 == pg)).map Prod.snd with
    | none =>
      have h1 : topologyLine groups sortNodes pg = none := by
        rw [topologyLine, hf]
      have h2 : keepPg groups pg = false := by
        rw [keepPg, hf]
      rw [h1, h2]
      simpa using ih
    | some ns =>
      by_cases hn : ns.isEmpty
      · have h1 : topologyLine groups sortNodes pg = none := by
          rw [topologyLine, hf]
          simp [hn]
        have h2 : keepPg groups pg = false := by
          rw [keepPg, hf]
          simp [hn]
        rw [h1, h2]
        simpa using ih
      · have h1 : topologyLine groups sortNodes pg =
            some (pg, sortNodes (pgBool pg) ns) := by
          rw [topologyLine, hf]
          simp [hn]
        have h2 : keepPg groups pg = true := by
          rw [keepPg, hf]
          simpa using hn
        rw [h1, h2]
        simpa using ih

theorem filter_keepPg_eq :
    ∀ groups : List (Option String × List String),
    (groups.map Prod.fst).Nodup →
    (groups.map Prod.fst).filter (keepPg groups) =
      (groups.filter (fun e => !e.2.isEmpty)).map Prod.fst := by
  intro groups
  induction groups with
  | nil => intro _; rfl
  | cons g gs ih =>
    intro h
    rw [List.map_cons] at h
    have hnodup := List.nodup_cons.mp h
    rw [List.map_cons, List.filter_cons, List.filter_cons]
    have hkeep : keepPg (g :: gs) g.1 = !g.2.isEmpty := by
      have : List.find? (fun e => e.1 == g.1) (g :: gs) = some g :=
        List.find?_cons_of_pos _ (by simp)
      simp [keepPg, this]
    have htail : (gs.map Prod.fst).filter (keepPg (g :: gs)) =
        (gs.map Prod.fst).filter (keepPg gs) := by
      apply List.filter_congr
      intro k hk
      have hkne : (g.1 == k) = false := by
        by_contra hcon
        have hkeq : g.1 = k := by
          have := Bool.not_eq_false (g.1 == k) ▸ hcon
          simpa using Bool.of_not_eq_false hcon
        subst hkeq
        exact hnodup.1 hk
      have hstep : List.find? (fun e => e.1 == k) (g :: gs) =
          List.find? (fun e => e.1 == k) gs :=
        List.find?_cons_of_neg _ (by simp [hkne])
      simp [keepPg, hstep]
    rw [hkeep, htail, ih hnodup.2]
    by_cases hne : g.2.isEmpty <;> simp [hne]

/-- C9: the topology renderer raises (the `NoTopologyDataError` of the
spec) exactly when no placement group at all was collected; otherwise it
emits one switch line per non-empty group — the emitted key sequence is a
permutation of the non-empty groups' keys, sorted so that the null group
(rendered `htc`) comes first and the rest follow in order of group id —
and each line carries that group's nodes sorted by the
placement-group-aware key. -/
theorem topology_error_iff_no_groups_else_sorted
    (sortNodes : Bool → List String → List String) (ps : List Partition) :
    pgName none = "htc" ∧
    (generateTopology sortNodes ps = .error topologyErrorMsg ↔
      collectGroups ps = []) ∧
    (∀ lines, generateTopology sortNodes ps = .ok lines →
      List.Sorted pgLe (lines.map Prod.fst) ∧
      (lines.map Prod.fst).Perm
        (((collectGroups ps).filter (fun e => !e.2.isEmpty)).map Prod.fst) ∧
      (∀ e ∈ lines, ∃ ns, (e.1, ns) ∈ collectGroups ps ∧
        ns.isEmpty = false ∧ e.2 = sortNodes (pgBool e.1) ns ∧
        renderSwitch e =
          "SwitchName=" ++ pgName e.1 ++ " Nodes=" ++
            String.intercalate "," e.2)) := by
  refine ⟨rfl, ?_, ?_⟩
  · unfold generateTopology
    by_cases hg : (collectGroups ps).isEmpty
    · rw [if_pos hg]
      simp only [List.isEmpty_iff] at hg
      exact ⟨fun _ => hg, fun _ => rfl⟩
    · rw [if_neg hg]
      simp only [List.isEmpty_iff] at hg
      constructor
      · intro h; cases h
      · intro h; exact absurd h hg
  · intro lines hl
    unfold generateTopology at hl
    by_cases hg : (collectGroups ps).isEmpty
    · rw [if_pos hg] at hl
      cases hl
    · rw [if_neg hg] at hl
      injection hl with hl
      subst hl
      have hnodup : ((collectGroups ps).map Prod.fst).Nodup :=
        foldl_addGroup_keys_nodup _ [] (by simp)
      have hmap := map_fst_filterMap_keys (collectGroups ps) sortNodes
        (List.insertionSort pgLe ((collectGroups ps).map Prod.fst))
      refine ⟨?_, ?_, ?_⟩
      · rw [hmap]
        exact (List.sorted_insertionSort pgLe
          ((collectGroups ps).map Prod.fst)).sublist
          (List.filter_sublist _)
      · rw [hmap]
        have h1 : List.Perm
            ((List.insertionSort pgLe
              ((collectGroups ps).map Prod.fst)).filter
                (keepPg (collectGroups ps)))
            (((collectGroups ps).map Prod.fst).filter
              (keepPg (collectGroups ps))) :=
          (List.perm_insertionSort pgLe _).filter _
        rw [filter_keepPg_eq _ hnodup] at h1
        exact h1
      · intro e he
        simp only [List.mem_filterMap] at he
        obtain ⟨pg, _, hline⟩ := he
        rw [topologyLine] at hline
        cases hfind : (collectGroups ps).find? (fun q => q.1 == pg) with
        | none => rw [hfind] at hline; cases hline
        | some entry =>
          rw [hfind] at hline
          simp only [Option.map_some'] at hline
          by_cases hn : entry.2.isEmpty
          · rw [if_pos hn] at hline; cases hline
          · rw [if_neg hn] at hline
            have hpg : entry.1 = pg := by
              have := List.find?_some hfind
              simpa using this
            have hmem : entry ∈ collectGroups ps :=
              List.mem_of_find?_eq_some hfind
            injection hline with hline
            subst hline
            refine ⟨entry.2, ?_, by simpa using hn, rfl, rfl⟩
            rw [← hpg]
            simpa using hmem

/-- The externally observable steps of `SlurmCLI.keep_alive` (cli.py lines
499-554), in program order. -/
inductive KeepAliveEffect
  | readConfig
  | showHostnames (arg : String)
  | showHostlist (arg : String)
  | writeKeepAliveConf (content : String)
  | reconfig
  deriving Repr, DecidableEq

/-- The outputs of the external commands `keep_alive` consumes:
`scontrol show config`, the `slutil.from_hostlist` codec,
`scontrol show hostnames` and `scontrol show hostlist`. -/
structure KeepAliveEnv where
  configLines : List String
  fromHostlist : String → List String
  showHostnamesOut : String → List String
  showHostlistOut : String → String

/-- `SlurmCLI.keep_alive` (cli.py lines 499-554): the `--remove`/`--set`
conflict check comes first, before the `scontrol show config` read, the
keep_alive.conf write and the reconfigure; then the current excluded set
is parsed from the `SuspendExcNodes` config line (`(null)` meaning empty),
combined with the caller's list (replace / subtract / append),
de-duplicated, re-sorted (`sortKey` stands for the external
`sorted(…, key=slutil.get_sort_key_func(False))`), re-compressed and
written.  Python `list(set(…))` and set subtraction are modelled as
first-occurrence de-duplication in insertion order. -/
def keepAlive (env : KeepAliveEnv) (sortKey : List String → List String)
    (nodeList : List String) (remove set_nodes : Bool) :
    Except String (List KeepAliveEffect) :=
  if remove && set_nodes then
    .error "Please define only --set or --remove, not both."
  else
    let filtered := env.configLines.filter
      (fun line => (strLower line).startsWith "suspendexcnodes")
    let currentSuspNodes :=
      match filtered with
      | [] => []
      | line :: _ =>
        let expr := ((line.splitOn "=").getLastD "").trim
        if expr = "(null)" then [] else env.fromHostlist expr
    let hostnames :=
      if set_nodes then nodeList.eraseDups
      else if remove then
        (currentSuspNodes.eraseDups).filter (fun h => h ∉ nodeList)
      else currentSuspNodes ++ nodeList
    let allSuspHostnames :=
      env.showHostnamesOut (String.intercalate "," hostnames)
    let sortedHostnames := sortKey allSuspHostnames.eraseDups
    let hostlist :=
      env.showHostlistOut (String.intercalate "," sortedHostnames)
    .ok [ .readConfig,
          .showHostnames (String.intercalate "," hostnames),
          .showHostlist (String.intercalate "," sortedHostnames),
          .writeKeepAliveConf ("SuspendExcNodes = " ++ hostlist),
          .reconfig ]

/-- C10: with both `--remove` and `--set`, `keep_alive` raises before any
external effect — no config read, no file write, no reconfigure — so the
excluded-nodes configuration is unchanged on this error path; with at most
one of the flags set it proceeds, reading the config first and ending with
the `SuspendExcNodes` write and the reconfigure. -/
theorem keep_alive_both_flags_errors_before_effects (env : KeepAliveEnv)
    (sortKey : List String → List String) (nodeList : List String) :
    keepAlive env sortKey nodeList true true =
      .error "Please define only --set or --remove, not both." ∧
    (∀ remove set_nodes : Bool, (remove && set_nodes) = false →
      ∃ effs content,
        keepAlive env sortKey nodeList remove set_nodes = .ok effs ∧
        effs.head? = some .readConfig ∧
        effs.getLast? = some .reconfig ∧
        effs[3]? = some (.writeKeepAliveConf content) ∧
        KeepAliveEffect.writeKeepAliveConf content ∈ effs) := by
  constructor
  · rfl
  · intro remove set_nodes h
    rw [keepAlive, if_neg (by simp [h])]
    refine ⟨_, _, rfl, rfl, rfl, rfl, by simp⟩
